import Mathlib

/-!
Verification of the road-geometry core of `osm2od.py` (osm2opendrive).

The geometric code of the repository is embedded shallowly: latitude/longitude
coordinates read from the input file are modelled as exact rationals, planar
(UTM) coordinates and all trigonometric computation as real numbers.  The UTM
projection is an external library (`utm.from_latlon` / `utm.to_latlon`) and is
modelled as a pair of function parameters `proj` / `inv`, as every claim below
is either independent of the projection or is instantiated at the identity
projection.  Division by zero follows Lean's `x / 0 = 0` convention; the Python
code never guards these divisions (numpy produces `nan` there), and no claim's
verdict depends on the value a degenerate division takes.
-/

/-- Modelled from the spec: the `Node` class of the repository's `road.py`
(not present under `src/`): a stable identity plus a geographic coordinate.
Python compares nodes by object identity; nodes are created once per distinct
id by `readNodes`, so identity is modelled as structural equality of the
record. -/
structure Node where
  id : Nat
  lat : ℚ
  lng : ℚ
deriving DecidableEq, Repr

/-- Modelled from the spec: the `Road` class of `road.py` (not present under
`src/`): a stable identity, an ordered list of borrowed nodes, and the
optional declared lane-count attribute (`r.lanes`, absent when the source way
carries no `lanes` tag). -/
structure Road where
  id : Nat
  nodes : List Node
  lanes : Option Int
deriving DecidableEq, Repr

/-- `np.arctan2 det dot` (four-quadrant arctangent), as used by
`vector_angle`. -/
noncomputable def atan2 (y x : ℝ) : ℝ :=
  if 0 < x then Real.arctan (y / x)
  else if x < 0 ∧ 0 ≤ y then Real.arctan (y / x) + Real.pi
  else if x < 0 ∧ y < 0 then Real.arctan (y / x) - Real.pi
  else if x = 0 ∧ 0 < y then Real.pi / 2
  else if x = 0 ∧ y < 0 then -(Real.pi / 2)
  else 0

/-- `np.linalg.norm` of a 2-vector. -/
noncomputable def norm2 (v : ℝ × ℝ) : ℝ := Real.sqrt (v.1 ^ 2 + v.2 ^ 2)

/-- Componentwise difference of 2-vectors (numpy array subtraction). -/
def sub2 (a b : ℝ × ℝ) : ℝ × ℝ := (a.1 - b.1, a.2 - b.2)

/-- `vector_angle(v1, v2)` of `osm2od.py`: signed angle from `v1` to `v2`,
computed from the normalized vectors' dot product and 2D cross product. -/
noncomputable def vector_angle (v1 v2 : ℝ × ℝ) : ℝ :=
  let v1_u : ℝ × ℝ := (v1.1 / norm2 v1, v1.2 / norm2 v1)
  let v2_u : ℝ × ℝ := (v2.1 / norm2 v2, v2.2 / norm2 v2)
  let dot := v1_u.1 * v2_u.1 + v1_u.2 * v2_u.2
  let det := v1_u.1 * v2_u.2 - v1_u.2 * v2_u.1
  atan2 det dot

/-- `rotate_vector(vector, angle)` of `osm2od.py`. -/
noncomputable def rotate_vector (v : ℝ × ℝ) (angle : ℝ) : ℝ × ℝ :=
  (Real.cos angle * v.1 - Real.sin angle * v.2,
   Real.sin angle * v.1 + Real.cos angle * v.2)

/-- The bisector angle computed at an interior point of `find_parallel`:
`angle = vector_angle(v0, v); angle = pi + angle; angle = -angle/2.0`. -/
noncomputable def interior_angle (v0 v : ℝ × ℝ) : ℝ :=
  -(Real.pi + vector_angle v0 v) / 2

/-- The scaled offset magnitude at an interior point of `find_parallel`:
`scaled_width = abs(width/np.sin(angle))`. -/
noncomputable def interior_scaled_width (width : ℝ) (v0 v : ℝ × ℝ) : ℝ :=
  |width / Real.sin (interior_angle v0 v)|

/-- The body of the loop of `find_parallel` at index `i` (over the latitude/
longitude point list `points`): it yields the offset point for `points[i]`,
plus — on the final iteration `i = len(points)-2` — the offset point for the
last input point. -/
noncomputable def segment_points (proj : ℚ × ℚ → ℝ × ℝ) (inv : ℝ × ℝ → ℝ × ℝ)
    (points : List (ℚ × ℚ)) (width : ℝ) (left : Bool) (i : Nat) : List (ℝ × ℝ) :=
  let p1 := proj (points.getD i (0, 0))
  let p2 := proj (points.getD (i + 1) (0, 0))
  let v := sub2 p2 p1
  let v0 := sub2 p1 (proj (points.getD (i - 1) (0, 0)))
  let lv : ℝ × ℝ :=
    if i ≠ 0 then rotate_vector v (interior_angle v0 v) else (v.2, -v.1)
  let scaled_width := if i ≠ 0 then interior_scaled_width width v0 v else width
  let l : ℝ × ℝ := (scaled_width * lv.1 / norm2 lv, scaled_width * lv.2 / norm2 lv)
  let lp := if left then (p1.1 - l.1, p1.2 - l.2) else (p1.1 + l.1, p1.2 + l.2)
  if i = points.length - 2 then
    let lv2 : ℝ × ℝ := if left then (-v.2, v.1) else (v.2, -v.1)
    let lv3 : ℝ × ℝ := (lv2.1 / norm2 v, lv2.2 / norm2 v)
    let l2 : ℝ × ℝ := (width * lv3.1 / norm2 lv3, width * lv3.2 / norm2 lv3)
    [inv lp, inv (p2.1 + l2.1, p2.2 + l2.2)]
  else [inv lp]

/-- `find_parallel(road, width, left)` of `osm2od.py`: the offset-curve
generator.  `proj` and `inv` stand for `utm.from_latlon` / `utm.to_latlon`
(the external Projector collaborator). -/
noncomputable def find_parallel (proj : ℚ × ℚ → ℝ × ℝ) (inv : ℝ × ℝ → ℝ × ℝ)
    (road : List Node) (width : ℝ) (left : Bool) : List (ℝ × ℝ) :=
  let points := road.map fun n => (n.lat, n.lng)
  (List.range (points.length - 1)).flatMap (segment_points proj inv points width left)

/-- The lane-count normalization of `buildXML` (lines 129-133):
`if num_lanes > 1 and num_lanes % 2 != 0: num_lanes -= 1`
`elif num_lanes == 0: num_lanes = 1`. -/
def normalize_lanes (n : Int) : Int :=
  if 1 < n ∧ n % 2 ≠ 0 then n - 1 else if n = 0 then 1 else n

/-- The fixed lane width of `buildXML` (`lane_width = 3.0`). -/
noncomputable def lane_width : ℝ := 3

/-- The data `buildXML` computes for one `<lane>` element: id, direction,
center-line point set and border point set. -/
structure Lane where
  id : Int
  direction : String
  centerLine : List (ℝ × ℝ)
  border : List (ℝ × ℝ)

/-- The geometric content of one `<laneSection>` element of `buildXML`:
normalized lane count, left/right global boundary point sets, reference
center point set, the right-side lanes, and the left-side lanes (`none` when
the `<left>` element is not created). -/
structure LaneSection where
  num_lanes : Int
  left_boundary : List (ℝ × ℝ)
  right_boundary : List (ℝ × ℝ)
  center : List (ℝ × ℝ)
  right : List Lane
  left : Option (List Lane)

/-- The right lane built at loop index `i` of `buildXML` (lines 226-281). -/
noncomputable def build_right_lane (proj : ℚ × ℚ → ℝ × ℝ) (inv : ℝ × ℝ → ℝ × ℝ)
    (r : Road) (num_lanes : Int) (nodes : List (ℝ × ℝ)) (i : Nat) : Lane :=
  { id := -((i : Int) + 1)
    direction := if num_lanes = 1 then "bidirection" else "forward"
    centerLine := if num_lanes = 1 then nodes
      else find_parallel proj inv r.nodes ((i : ℝ) * lane_width + lane_width / 2) false
    border := if num_lanes = 1 then find_parallel proj inv r.nodes (lane_width / 2) false
      else find_parallel proj inv r.nodes (((i : ℝ) + 1) * lane_width) false }

/-- The left lane built at loop index `i` of `buildXML` (lines 283-330),
only reached when `num_lanes > 1`. -/
noncomputable def build_left_lane (proj : ℚ × ℚ → ℝ × ℝ) (inv : ℝ × ℝ → ℝ × ℝ)
    (r : Road) (i : Nat) : Lane :=
  { id := (i : Int) + 1
    direction := "backward"
    centerLine := find_parallel proj inv r.nodes ((i : ℝ) * lane_width + lane_width / 2) true
    border := find_parallel proj inv r.nodes (((i : ℝ) + 1) * lane_width) true }

/-- The lane-section geometry `buildXML` computes for a single road
(lines 119-331), stripped of the XML plumbing: lane-count normalization,
global boundaries, reference center line, and the per-side lane loop over
`range(math.ceil(num_lanes/2))`. -/
noncomputable def build_lane_section (proj : ℚ × ℚ → ℝ × ℝ) (inv : ℝ × ℝ → ℝ × ℝ)
    (r : Road) : LaneSection :=
  let num_lanes := normalize_lanes (r.lanes.getD 1)
  let nodes : List (ℝ × ℝ) := r.nodes.map fun n => ((n.lat : ℝ), (n.lng : ℝ))
  let lane_count := (⌈(num_lanes : ℝ) / 2⌉).toNat
  { num_lanes := num_lanes
    left_boundary := if num_lanes = 1 then nodes
      else find_parallel proj inv r.nodes ((num_lanes : ℝ) / 2 * lane_width) true
    right_boundary := if num_lanes = 1 then find_parallel proj inv r.nodes lane_width false
      else find_parallel proj inv r.nodes ((num_lanes : ℝ) / 2 * lane_width) false
    center := if 1 < num_lanes then nodes
      else find_parallel proj inv r.nodes (lane_width / 2) true
    right := (List.range lane_count).map (build_right_lane proj inv r num_lanes nodes)
    left := if 1 < num_lanes then
        some ((List.range lane_count).map (build_left_lane proj inv r))
      else none }

/-- One inner-loop step of the junction scan of `buildXML` (lines 335-343):
for the ordered road pair `(r, road)`, skip when they are the same road,
otherwise record `{r, road}` at every node they share. -/
def junction_inner (r road : Road) (j : Node → Finset Road) : Node → Finset Road :=
  if r = road then j
  else fun m => if m ∈ r.nodes ∧ m ∈ road.nodes then j m ∪ {r, road} else j m

/-- The full junction index of `buildXML`: the nested scan over ordered pairs
of roads, starting from the empty map.  A node is a junction key exactly when
its final road set is nonempty. -/
def build_junctions (roads : List Road) : Node → Finset Road :=
  roads.foldl (fun j r => roads.foldl (fun j2 road => junction_inner r road j2) j)
    (fun _ => ∅)

/-- The identity projection, used to instantiate the external Projector on
concrete counterexamples: latitude/longitude are read as planar coordinates
unchanged. -/
noncomputable def idproj (p : ℚ × ℚ) : ℝ × ℝ := ((p.1 : ℝ), (p.2 : ℝ))

/-- Node A of the junction-detection test scenario. -/
def exA : Node := ⟨1, 0, 0⟩

/-- Node B of the junction-detection test scenario (referenced by all three
roads). -/
def exB : Node := ⟨2, 0, 1⟩

/-- Node C of the junction-detection test scenario. -/
def exC : Node := ⟨3, 1, 0⟩

/-- Node D of the junction-detection test scenario. -/
def exD : Node := ⟨4, 1, 1⟩

/-- Road1 = [A, B] of the junction-detection test scenario. -/
def exRoad1 : Road := ⟨1, [exA, exB], none⟩

/-- Road2 = [B, C] of the junction-detection test scenario. -/
def exRoad2 : Road := ⟨2, [exB, exC], none⟩

/-- Road3 = [B, D] of the junction-detection test scenario. -/
def exRoad3 : Road := ⟨3, [exB, exD], none⟩

section LengthLemmas

lemma sum_ite_range_of_le (k : ℕ) : ∀ m, m ≤ k →
    ((List.range m).map (fun i => if i = k then 2 else 1)).sum = m := by
  intro m
  induction m with
  | zero => simp
  | succ p ih =>
    intro h
    rw [List.range_succ, List.map_append, List.sum_append, ih (Nat.le_of_succ_le h)]
    have : p ≠ k := Nat.ne_of_lt h
    simp [this]

lemma sum_ite_range (k : ℕ) : ∀ m, k < m →
    ((List.range m).map (fun i => if i = k then 2 else 1)).sum = m + 1 := by
  intro m
  induction m with
  | zero => omega
  | succ p ih =>
    intro h
    rw [List.range_succ, List.map_append, List.sum_append]
    rcases Nat.lt_succ_iff_lt_or_eq.mp h with h' | h'
    · rw [ih h']
      have : p ≠ k := by omega
      simp [this]
    · subst h'
      rw [sum_ite_range_of_le k k le_rfl]
      simp

lemma segment_points_length (proj : ℚ × ℚ → ℝ × ℝ) (inv : ℝ × ℝ → ℝ × ℝ)
    (points : List (ℚ × ℚ)) (width : ℝ) (left : Bool) (i : Nat) :
    (segment_points proj inv points width left i).length =
      if i = points.length - 2 then 2 else 1 := by
  unfold segment_points
  by_cases h : i = points.length - 2 <;> simp [h]

lemma find_parallel_length (proj : ℚ × ℚ → ℝ × ℝ) (inv : ℝ × ℝ → ℝ × ℝ)
    (road : List Node) (width : ℝ) (left : Bool) (h : 2 ≤ road.length) :
    (find_parallel proj inv road width left).length = road.length := by
  simp only [find_parallel]
  rw [List.length_flatMap]
  simp only [Function.comp_def, segment_points_length, List.length_map]
  rw [sum_ite_range (road.length - 2) (road.length - 1) (by omega)]
  omega

end LengthLemmas

/-- C1: for every input polyline of length `n ≥ 2` with no coinciding
consecutive points, `find_parallel` returns exactly `n` points, positionally
one-to-one with the input. -/
theorem find_parallel_point_count (proj : ℚ × ℚ → ℝ × ℝ) (inv : ℝ × ℝ → ℝ × ℝ)
    (road : List Node) (width : ℝ) (left : Bool)
    (hlen : 2 ≤ road.length)
    (hnd : (road.map fun n => (n.lat, n.lng)).Chain' (· ≠ ·)) :
    (find_parallel proj inv road width left).length = road.length :=
  find_parallel_length proj inv road width left hlen

/-- Witness for C1 at the concrete 2-point polyline (0,0)-(1,0). -/
theorem find_parallel_point_count_witness :
    2 ≤ ([⟨0, 0, 0⟩, ⟨1, 1, 0⟩] : List Node).length ∧
      (([⟨0, 0, 0⟩, ⟨1, 1, 0⟩] : List Node).map fun n => (n.lat, n.lng)).Chain' (· ≠ ·) ∧
      (find_parallel idproj id [⟨0, 0, 0⟩, ⟨1, 1, 0⟩] 3 false).length =
        ([⟨0, 0, 0⟩, ⟨1, 1, 0⟩] : List Node).length :=
  ⟨by decide, by norm_num [Prod.ext_iff], find_parallel_point_count idproj id [⟨0, 0, 0⟩, ⟨1, 1, 0⟩] 3 false
    (by decide) (by norm_num [Prod.ext_iff])⟩

/-- C5 counterexample: on a 1-point input, `find_parallel` does not fail with
an `InsufficientPoints` error (no such error exists in the code); it returns
the empty list. -/
theorem find_parallel_single_point_returns_empty :
    find_parallel idproj id [⟨0, 0, 0⟩] 3 false = [] := by
  simp [find_parallel]

/-- C5 as amended: for every input of fewer than 2 points, `find_parallel`
returns the empty list (the loop body is never entered); it does not raise
any error. -/
theorem find_parallel_short_input (proj : ℚ × ℚ → ℝ × ℝ) (inv : ℝ × ℝ → ℝ × ℝ)
    (road : List Node) (width : ℝ) (left : Bool) (h : road.length < 2) :
    find_parallel proj inv road width left = [] := by
  simp only [find_parallel]
  have h0 : (road.map fun n => (n.lat, n.lng)).length - 1 = 0 := by
    simp only [List.length_map]; omega
  rw [h0]
  simp

/-- Witness for the amended C5 at a concrete 1-point input. -/
theorem find_parallel_short_input_witness :
    ([⟨0, 0, 0⟩] : List Node).length < 2 ∧
      find_parallel idproj id [⟨0, 0, 0⟩] 3 true = [] :=
  ⟨by decide, find_parallel_short_input idproj id [⟨0, 0, 0⟩] 3 true (by decide)⟩

/-- C3: lane-count normalization maps a declared count of 0 to 1 and
decrements any odd declared count greater than 1; declared counts 0-5 map to
1, 1, 2, 2, 4, 4. -/
theorem normalize_lanes_spec :
    normalize_lanes 0 = 1 ∧
      (∀ n : Int, 1 < n → n % 2 ≠ 0 → normalize_lanes n = n - 1) ∧
      ([0, 1, 2, 3, 4, 5] : List Int).map normalize_lanes = [1, 1, 2, 2, 4, 4] := by
  refine ⟨by decide, ?_, by decide⟩
  intro n h1 h2
  simp only [normalize_lanes, if_pos (show 1 < n ∧ n % 2 ≠ 0 from ⟨h1, h2⟩)]

/-- Witness for C3 at the concrete odd declared count 5. -/
theorem normalize_lanes_spec_witness :
    1 < (5 : Int) ∧ (5 : Int) % 2 ≠ 0 ∧ normalize_lanes 5 = 5 - 1 :=
  ⟨by decide, by decide, normalize_lanes_spec.2.1 5 (by decide) (by decide)⟩

/-- C9 counterexample: a declared lane count of -3 is not normalized to 1,
and the resulting lane section is not the one a declared count of 1 yields:
it contains no right lanes at all, while a count of 1 yields one right
lane. -/
theorem negative_lanes_not_normalized :
    normalize_lanes (-3) ≠ 1 ∧
      (build_lane_section idproj id ⟨7, [⟨0, 0, 0⟩, ⟨1, 1, 0⟩], some (-3)⟩).right.length = 0 ∧
      (build_lane_section idproj id ⟨7, [⟨0, 0, 0⟩, ⟨1, 1, 0⟩], some 1⟩).right.length = 1 := by
  have hc1 : ⌈((-3 : Int) : ℝ) / 2⌉ = -1 := by
    rw [Int.ceil_eq_iff]
    norm_num
  have hc2 : ⌈((1 : Int) : ℝ) / 2⌉ = 1 := by
    rw [Int.ceil_eq_iff]
    norm_num
  refine ⟨by decide, ?_, ?_⟩
  · simp only [build_lane_section, Option.getD_some,
      show normalize_lanes (-3) = -3 from by decide, hc1]
    simp
  · simp only [build_lane_section, Option.getD_some,
      show normalize_lanes 1 = 1 from by decide, hc2]
    simp

/-- C9 as amended: a negative declared lane count is left unchanged by the
normalization (no warning, no renormalization to 1); the builder then
produces a lane section with an empty right-lane list and no left element,
which is not the single-lane layout a declared count of 1 produces. -/
theorem negative_lanes_pass_through (proj : ℚ × ℚ → ℝ × ℝ) (inv : ℝ × ℝ → ℝ × ℝ)
    (r : Road) (n : Int) (hn : n < 0) (hr : r.lanes = some n) :
    normalize_lanes n = n ∧
      (build_lane_section proj inv r).num_lanes = n ∧
      (build_lane_section proj inv r).right = [] ∧
      (build_lane_section proj inv r).left = none := by
  have hnorm : normalize_lanes n = n := by
    unfold normalize_lanes
    rw [if_neg (by omega), if_neg (by omega)]
  have hnr : (n : ℝ) < 0 := by exact_mod_cast hn
  have hceil : (⌈(n : ℝ) / 2⌉).toNat = 0 := by
    apply Int.toNat_of_nonpos
    rw [Int.ceil_le]
    push_cast
    linarith
  refine ⟨hnorm, ?_, ?_, ?_⟩
  · simp only [build_lane_section, hr, Option.getD_some, hnorm]
  · simp only [build_lane_section, hr, Option.getD_some, hnorm, hceil]
    simp
  · simp only [build_lane_section, hr, Option.getD_some, hnorm]
    rw [if_neg (by omega)]

/-- Witness for the amended C9 at the concrete declared count -3. -/
theorem negative_lanes_pass_through_witness :
    (-3 : Int) < 0 ∧
      (⟨7, [⟨0, 0, 0⟩, ⟨1, 1, 0⟩], some (-3)⟩ : Road).lanes = some (-3) ∧
      normalize_lanes (-3) = -3 ∧
      (build_lane_section idproj id ⟨7, [⟨0, 0, 0⟩, ⟨1, 1, 0⟩], some (-3)⟩).right = [] :=
  ⟨by decide, rfl,
    (negative_lanes_pass_through idproj id ⟨7, [⟨0, 0, 0⟩, ⟨1, 1, 0⟩], some (-3)⟩
      (-3) (by decide) rfl).1,
    (negative_lanes_pass_through idproj id ⟨7, [⟨0, 0, 0⟩, ⟨1, 1, 0⟩], some (-3)⟩
      (-3) (by decide) rfl).2.2.1⟩

section JunctionLemmas

lemma mem_junction_inner (r road : Road) (j : Node → Finset Road) (n : Node) (s : Road) :
    s ∈ junction_inner r road j n ↔
      s ∈ j n ∨ (r ≠ road ∧ n ∈ r.nodes ∧ n ∈ road.nodes ∧ (s = r ∨ s = road)) := by
  unfold junction_inner
  by_cases h : r = road
  · simp [h]
  · rw [if_neg h]
    by_cases hm : n ∈ r.nodes ∧ n ∈ road.nodes
    · simp only [if_pos hm, Finset.mem_union, Finset.mem_insert, Finset.mem_singleton]
      tauto
    · simp only [if_neg hm]
      tauto

lemma mem_foldl_junction_inner (r : Road) (l : List Road) (n : Node) (s : Road) :
    ∀ j : Node → Finset Road,
      s ∈ (l.foldl (fun j2 road => junction_inner r road j2) j) n ↔
        s ∈ j n ∨ ∃ road ∈ l, r ≠ road ∧ n ∈ r.nodes ∧ n ∈ road.nodes ∧ (s = r ∨ s = road) := by
  induction l with
  | nil => simp
  | cons a t ih =>
    intro j
    rw [List.foldl_cons, ih, mem_junction_inner, or_assoc]
    apply or_congr_right
    constructor
    · rintro (h | ⟨road, hm, h⟩)
      · exact ⟨a, List.mem_cons_self a t, h⟩
      · exact ⟨road, List.mem_cons_of_mem a hm, h⟩
    · rintro ⟨road, hm, h⟩
      rcases List.mem_cons.mp hm with rfl | hm'
      · exact Or.inl h
      · exact Or.inr ⟨road, hm', h⟩

lemma mem_build_junctions_aux (roads : List Road) (l : List Road) (n : Node) (s : Road) :
    ∀ j : Node → Finset Road,
      s ∈ (l.foldl (fun j r => roads.foldl (fun j2 road => junction_inner r road j2) j) j) n ↔
        s ∈ j n ∨ ∃ r ∈ l, ∃ road ∈ roads,
          r ≠ road ∧ n ∈ r.nodes ∧ n ∈ road.nodes ∧ (s = r ∨ s = road) := by
  induction l with
  | nil => simp
  | cons a t ih =>
    intro j
    rw [List.foldl_cons, ih, mem_foldl_junction_inner, or_assoc]
    apply or_congr_right
    constructor
    · rintro (h | ⟨r, hm, h⟩)
      · exact ⟨a, List.mem_cons_self a t, h⟩
      · exact ⟨r, List.mem_cons_of_mem a hm, h⟩
    · rintro ⟨r, hm, h⟩
      rcases List.mem_cons.mp hm with rfl | hm'
      · exact Or.inl h
      · exact Or.inr ⟨r, hm', h⟩

lemma mem_build_junctions (roads : List Road) (n : Node) (s : Road) :
    s ∈ build_junctions roads n ↔
      s ∈ roads ∧ n ∈ s.nodes ∧ ∃ t ∈ roads, t ≠ s ∧ n ∈ t.nodes := by
  unfold build_junctions
  rw [mem_build_junctions_aux]
  simp only [Finset.not_mem_empty, false_or]
  constructor
  · rintro ⟨r, hr, road, hroad, hne, hnr, hnroad, hs | hs⟩
    · subst hs
      exact ⟨hr, hnr, road, hroad, hne.symm, hnroad⟩
    · subst hs
      exact ⟨hroad, hnroad, r, hr, hne, hnr⟩
  · rintro ⟨hs, hns, t, ht, hts, hnt⟩
    exact ⟨s, hs, t, ht, hts.symm, hns, hnt, Or.inl rfl⟩

end JunctionLemmas

/-- C7: a node becomes a junction exactly when at least two distinct roads
reference it, its incident set is precisely the roads referencing it, every
junction has at least two distinct incident roads, and on the concrete
scenario Road1=[A,B], Road2=[B,C], Road3=[B,D] node B yields the junction
{Road1, Road2, Road3} while A, C, D yield none. -/
theorem junction_detection :
    (∀ (roads : List Road) (n : Node) (s : Road),
        s ∈ build_junctions roads n ↔
          s ∈ roads ∧ n ∈ s.nodes ∧ ∃ t ∈ roads, t ≠ s ∧ n ∈ t.nodes) ∧
      (∀ (roads : List Road) (n : Node),
        (build_junctions roads n).Nonempty → 2 ≤ (build_junctions roads n).card) ∧
      build_junctions [exRoad1, exRoad2, exRoad3] exB = {exRoad1, exRoad2, exRoad3} ∧
      build_junctions [exRoad1, exRoad2, exRoad3] exA = ∅ ∧
      build_junctions [exRoad1, exRoad2, exRoad3] exC = ∅ ∧
      build_junctions [exRoad1, exRoad2, exRoad3] exD = ∅ := by
  refine ⟨mem_build_junctions, ?_, by decide, by decide, by decide, by decide⟩
  intro roads n ⟨s, hs⟩
  obtain ⟨hsr, hns, t, ht, hts, hnt⟩ := (mem_build_junctions roads n s).mp hs
  have htj : t ∈ build_junctions roads n :=
    (mem_build_junctions roads n t).mpr ⟨ht, hnt, s, hsr, hts.symm, hns⟩
  exact Finset.one_lt_card.mpr ⟨s, hs, t, htj, fun h => hts (h ▸ rfl)⟩

/-- Witness for C7: node B of the concrete scenario is a junction and has at
least two incident roads. -/
theorem junction_detection_witness :
    (build_junctions [exRoad1, exRoad2, exRoad3] exB).Nonempty ∧
      2 ≤ (build_junctions [exRoad1, exRoad2, exRoad3] exB).card :=
  ⟨by decide, junction_detection.2.1 [exRoad1, exRoad2, exRoad3] exB (by decide)⟩

section GeometryLemmas

lemma norm2_one_zero : norm2 (1, 0) = 1 := by
  unfold norm2
  norm_num

lemma norm2_zero_negone : norm2 (0, -1) = 1 := by
  unfold norm2
  norm_num

lemma norm2_zero_zero : norm2 (0, 0) = 0 := by
  unfold norm2
  norm_num

lemma norm2_pos_of_ne (x y : ℝ) (h : x ^ 2 + y ^ 2 ≠ 0) : 0 < norm2 (x, y) := by
  unfold norm2
  apply Real.sqrt_pos.mpr
  rcases lt_or_eq_of_le (by positivity : (0:ℝ) ≤ x ^ 2 + y ^ 2) with h' | h'
  · exact h'
  · exact absurd h'.symm h

lemma rotate_sq (v : ℝ × ℝ) (a : ℝ) :
    (rotate_vector v a).1 ^ 2 + (rotate_vector v a).2 ^ 2 = v.1 ^ 2 + v.2 ^ 2 := by
  unfold rotate_vector
  simp only
  linear_combination (v.1 ^ 2 + v.2 ^ 2) * (Real.sin_sq_add_cos_sq a)

lemma offset_dist_sq (w : ℝ) (lv : ℝ × ℝ) (h : lv.1 ^ 2 + lv.2 ^ 2 ≠ 0) :
    (w * lv.1 / norm2 lv) ^ 2 + (w * lv.2 / norm2 lv) ^ 2 = w ^ 2 := by
  unfold norm2
  rw [div_pow, div_pow, Real.sq_sqrt (by positivity)]
  field_simp
  ring

lemma arctan_pos_of_pos (e : ℝ) (he : 0 < e) : 0 < Real.arctan e := by
  have h := Real.arctan_strictMono he
  rwa [Real.arctan_zero] at h

lemma arctan_lt_self (e : ℝ) (he : 0 < e) : Real.arctan e < e := by
  have h1 : 0 < Real.arctan e := arctan_pos_of_pos e he
  have h2 : Real.arctan e < Real.pi / 2 := Real.arctan_lt_pi_div_two e
  have h3 := Real.lt_tan h1 h2
  rwa [Real.tan_arctan] at h3

lemma sin_half_arctan_pos (e : ℝ) (he : 0 < e) : 0 < Real.sin (Real.arctan e / 2) := by
  apply Real.sin_pos_of_pos_of_lt_pi
  · have := arctan_pos_of_pos e he
    linarith
  · have h2 : Real.arctan e < Real.pi / 2 := Real.arctan_lt_pi_div_two e
    have hpi : 0 < Real.pi := Real.pi_pos
    linarith

lemma vector_angle_hazard (e : ℝ) (he : 0 < e) :
    vector_angle (1, 0) (-1, e) = Real.pi - Real.arctan e := by
  have hs : 0 < norm2 (-1, e) := norm2_pos_of_ne _ _ (by positivity)
  unfold vector_angle
  simp only [norm2_one_zero]
  norm_num
  have h1 : ¬ (0 < -1 / norm2 (-1, e)) := by
    rw [not_lt]
    apply div_nonpos_of_nonpos_of_nonneg <;> nlinarith
  have h2 : -1 / norm2 (-1, e) < 0 := by
    apply div_neg_of_neg_of_pos <;> nlinarith
  have h3 : 0 ≤ e / norm2 (-1, e) := by positivity
  unfold atan2
  rw [if_neg h1, if_pos ⟨h2, h3⟩]
  have h4 : e / norm2 (-1, e) / (-1 / norm2 (-1, e)) = -e := by
    field_simp
  rw [h4, Real.arctan_neg]
  ring

lemma interior_angle_hazard (e : ℝ) (he : 0 < e) :
    interior_angle (1, 0) (-1, e) = Real.arctan e / 2 - Real.pi := by
  unfold interior_angle
  rw [vector_angle_hazard e he]
  ring

lemma sin_interior_angle_hazard (e : ℝ) (he : 0 < e) :
    Real.sin (interior_angle (1, 0) (-1, e)) = -Real.sin (Real.arctan e / 2) := by
  rw [interior_angle_hazard e he, Real.sin_sub_pi]

lemma hazard_scaled_width (e : ℝ) (he : 0 < e) :
    2 / e < interior_scaled_width 1 (1, 0) (-1, e) := by
  unfold interior_scaled_width
  rw [sin_interior_angle_hazard e he]
  have hpos := sin_half_arctan_pos e he
  rw [abs_div, abs_neg, abs_of_pos hpos, abs_one]
  have hlt : Real.sin (Real.arctan e / 2) < e / 2 := by
    have h1 : Real.sin (Real.arctan e / 2) < Real.arctan e / 2 :=
      Real.sin_lt (by linarith [arctan_pos_of_pos e he])
    have h2 : Real.arctan e < e := arctan_lt_self e he
    linarith
  calc 2 / e = 1 / (e / 2) := by field_simp
  _ < 1 / Real.sin (Real.arctan e / 2) := one_div_lt_one_div_of_lt hpos hlt

lemma hazard_point :
    (find_parallel idproj id [⟨0, 0, 0⟩, ⟨1, 1, 0⟩, ⟨2, 0, 1/1000⟩] 1 false).getD 1 (0, 0) =
      (1 + interior_scaled_width 1 (1, 0) (-1, 1/1000) *
          (rotate_vector (-1, 1/1000) (interior_angle (1, 0) (-1, 1/1000))).1 /
          norm2 (rotate_vector (-1, 1/1000) (interior_angle (1, 0) (-1, 1/1000))),
       0 + interior_scaled_width 1 (1, 0) (-1, 1/1000) *
          (rotate_vector (-1, 1/1000) (interior_angle (1, 0) (-1, 1/1000))).2 /
          norm2 (rotate_vector (-1, 1/1000) (interior_angle (1, 0) (-1, 1/1000)))) := by
  simp only [find_parallel, List.map_cons, List.map_nil, List.length_cons, List.length_nil]
  norm_num
  rw [show List.range 2 = [0, 1] from by decide]
  simp only [List.flatMap_cons, List.flatMap_nil, List.append_nil]
  unfold segment_points
  norm_num [idproj, sub2]

end GeometryLemmas

/-- C4 counterexample: on the hazard polyline (0,0)-(1,0)-(0,0.001) with
nominal offset distance 1, the interior output offset point lies more than
4 x 1 away from its source point: the code applies no miter-scale cap. -/
theorem hazard_offset_exceeds_cap :
    (4 * 1 : ℝ) ^ 2 <
      (((find_parallel idproj id [⟨0, 0, 0⟩, ⟨1, 1, 0⟩, ⟨2, 0, 1/1000⟩] 1 false).getD 1 (0, 0)).1
          - 1) ^ 2 +
      (((find_parallel idproj id [⟨0, 0, 0⟩, ⟨1, 1, 0⟩, ⟨2, 0, 1/1000⟩] 1 false).getD 1 (0, 0)).2
          - 0) ^ 2 := by
  rw [hazard_point]
  set sw := interior_scaled_width 1 (1, 0) (-1, 1/1000) with hswdef
  set lv := rotate_vector (-1, 1/1000) (interior_angle (1, 0) (-1, 1/1000)) with hlvdef
  have hlv : lv.1 ^ 2 + lv.2 ^ 2 = (1 : ℝ) + (1/1000) ^ 2 := by
    rw [hlvdef, rotate_sq]
    norm_num
  have hsw : (2000 : ℝ) < sw := by
    have h := hazard_scaled_width (1/1000) (by norm_num)
    norm_num at h
    exact h
  have key : ((1 + sw * lv.1 / norm2 lv) - 1) ^ 2 + ((0 + sw * lv.2 / norm2 lv) - 0) ^ 2
      = sw ^ 2 := by
    calc ((1 + sw * lv.1 / norm2 lv) - 1) ^ 2 + ((0 + sw * lv.2 / norm2 lv) - 0) ^ 2
        = (sw * lv.1 / norm2 lv) ^ 2 + (sw * lv.2 / norm2 lv) ^ 2 := by ring
      _ = sw ^ 2 := offset_dist_sq sw lv (by rw [hlv]; norm_num)
  simp only [Prod.fst, Prod.snd]
  rw [key]
  nlinarith [hsw]

/-- C4 as amended: `find_parallel` applies no cap at all to the miter scale:
the interior offset magnitude `|width / sin(phi)|` exceeds every bound `M` on
suitable near-reversal direction vectors (at nominal distance 1), so no
configured maximum multiple of the nominal distance bounds the offset. -/
theorem no_miter_cap (M : ℝ) (hM : 0 < M) :
    ∃ v0 v : ℝ × ℝ, M < interior_scaled_width 1 v0 v := by
  refine ⟨(1, 0), (-1, 1/M), ?_⟩
  have h := hazard_scaled_width (1/M) (by positivity)
  have h2 : 2 / (1/M) = 2 * M := by field_simp
  rw [h2] at h
  linarith

/-- Witness for the amended C4 at the proposed cap multiple 4. -/
theorem no_miter_cap_witness :
    (0 : ℝ) < 4 ∧ ∃ v0 v : ℝ × ℝ, 4 < interior_scaled_width 1 v0 v :=
  ⟨by norm_num, no_miter_cap 4 (by norm_num)⟩

/-- C10: at every interior point, the scaled offset magnitude
`|width / sin(phi)|` computed by `find_parallel` is at least the nominal
width whenever `sin(phi)` is nonzero: the interior offset displacement is
never shorter than the requested distance. -/
theorem interior_offset_not_short (width : ℝ) (v0 v : ℝ × ℝ)
    (hw : 0 ≤ width) (hs : Real.sin (interior_angle v0 v) ≠ 0) :
    width ≤ interior_scaled_width width v0 v := by
  unfold interior_scaled_width
  rw [abs_div]
  have h1 : |Real.sin (interior_angle v0 v)| ≤ 1 :=
    abs_le.mpr ⟨Real.neg_one_le_sin _, Real.sin_le_one _⟩
  have h2 : 0 < |Real.sin (interior_angle v0 v)| := abs_pos.mpr hs
  rw [le_div_iff h2]
  nlinarith [le_abs_self width, abs_nonneg width]

section StraightSegmentLemmas

lemma vector_angle_straight : vector_angle (1, 0) (1, 0) = 0 := by
  unfold vector_angle
  simp only [norm2_one_zero]
  norm_num
  unfold atan2
  rw [if_pos one_pos]
  norm_num

lemma sin_interior_angle_straight :
    Real.sin (interior_angle (1, 0) (1, 0)) = -1 := by
  unfold interior_angle
  rw [vector_angle_straight,
    show (-(Real.pi + 0) / 2 : ℝ) = -(Real.pi / 2) from by ring,
    Real.sin_neg, Real.sin_pi_div_two]

end StraightSegmentLemmas

/-- Witness for C10 at width 3 on a straight joint (`sin(phi) = -1` there). -/
theorem interior_offset_not_short_witness :
    (0 : ℝ) ≤ 3 ∧ Real.sin (interior_angle (1, 0) (1, 0)) ≠ 0 ∧
      (3 : ℝ) ≤ interior_scaled_width 3 (1, 0) (1, 0) :=
  ⟨by norm_num, by rw [sin_interior_angle_straight]; norm_num,
    interior_offset_not_short 3 (1, 0) (1, 0) (by norm_num)
      (by rw [sin_interior_angle_straight]; norm_num)⟩

section LaneSectionLemmas

lemma find_parallel_two_horizontal (width : ℝ) :
    find_parallel idproj id [⟨0, 0, 0⟩, ⟨1, 1, 0⟩] width false
      = [(0, -width), (1, -width)] := by
  simp only [find_parallel, List.map_cons, List.map_nil, List.length_cons, List.length_nil]
  norm_num
  rw [show List.range 1 = [0] from by decide]
  simp only [List.flatMap_cons, List.flatMap_nil, List.append_nil]
  unfold segment_points
  norm_num [idproj, sub2, norm2_zero_negone, norm2_one_zero]

lemma ceil_one_half_toNat : (⌈((1 : Int) : ℝ) / 2⌉).toNat = 1 := by
  rw [Int.cast_one, show ⌈(1 : ℝ) / 2⌉ = 1 from by rw [Int.ceil_eq_iff] <;> norm_num]
  rfl

lemma normalize_lanes_even (n : Int) (h : 1 < normalize_lanes n) :
    normalize_lanes n % 2 = 0 := by
  unfold normalize_lanes at h ⊢
  by_cases h1 : 1 < n ∧ n % 2 ≠ 0
  · rw [if_pos h1] at h ⊢
    omega
  · rw [if_neg h1] at h ⊢
    by_cases h2 : n = 0
    · rw [if_pos h2] at h
      omega
    · rw [if_neg h2] at h ⊢
      by_contra hodd
      exact h1 ⟨h, hodd⟩

lemma ceil_half_even (c : Int) (h : c % 2 = 0) : ⌈(c : ℝ) / 2⌉ = c / 2 := by
  obtain ⟨k, rfl⟩ : ∃ k, c = 2 * k := ⟨c / 2, by omega⟩
  rw [show ((2 * k : Int) : ℝ) / 2 = (k : ℝ) from by push_cast; ring, Int.ceil_intCast]
  omega

end LaneSectionLemmas

/-- C2 counterexample: for a single-lane road over the straight polyline
(0,0)-(1,0), the right lane's border is NOT the offset at the full lane
width: the code uses `lane_width/2.0` there (the offset at the full width is
only used for the global right boundary). -/
theorem single_lane_border_not_full_width :
    (build_lane_section idproj id ⟨5, [⟨0, 0, 0⟩, ⟨1, 1, 0⟩], some 1⟩).right.map Lane.border ≠
      [find_parallel idproj id [⟨0, 0, 0⟩, ⟨1, 1, 0⟩] lane_width false] := by
  have h1 : (build_lane_section idproj id ⟨5, [⟨0, 0, 0⟩, ⟨1, 1, 0⟩], some 1⟩).right.map
      Lane.border = [[((0 : ℝ), -(3/2)), (1, -(3/2))]] := by
    simp only [build_lane_section, Option.getD_some,
      show normalize_lanes 1 = 1 from by decide, ceil_one_half_toNat,
      show List.range 1 = [0] from by decide, List.map_cons, List.map_nil]
    simp only [build_right_lane, reduceIte]
    rw [show lane_width / 2 = (3 / 2 : ℝ) from by rw [lane_width],
      find_parallel_two_horizontal]
  have h2 : find_parallel idproj id [⟨0, 0, 0⟩, ⟨1, 1, 0⟩] lane_width false
      = [((0 : ℝ), -3), (1, -3)] := by
    rw [show lane_width = (3 : ℝ) from rfl, find_parallel_two_horizontal]
  rw [h1, h2]
  simp only [ne_eq, List.cons.injEq, Prod.mk.injEq]
  norm_num

/-- C2 as amended: when the effective lane count is 1, the right lane's
border is the offset at HALF the lane width (`lane_width/2`, right side),
its center line is the road's node sequence unchanged, its direction is
"bidirection", no left element is produced, and the offset at the full lane
width is the road's global right boundary instead. -/
theorem single_lane_section (proj : ℚ × ℚ → ℝ × ℝ) (inv : ℝ × ℝ → ℝ × ℝ) (r : Road)
    (h : normalize_lanes (r.lanes.getD 1) = 1) :
    (build_lane_section proj inv r).right =
      [{ id := -1, direction := "bidirection",
         centerLine := r.nodes.map fun n => ((n.lat : ℝ), (n.lng : ℝ)),
         border := find_parallel proj inv r.nodes (lane_width / 2) false }] ∧
      (build_lane_section proj inv r).right_boundary =
        find_parallel proj inv r.nodes lane_width false ∧
      (build_lane_section proj inv r).left = none := by
  refine ⟨?_, ?_, ?_⟩
  · simp only [build_lane_section, h, ceil_one_half_toNat,
      show List.range 1 = [0] from by decide, List.map_cons, List.map_nil]
    simp only [build_right_lane, reduceIte]
    norm_num
  · simp only [build_lane_section, h, reduceIte]
  · simp only [build_lane_section, h]
    rw [if_neg (by omega)]

/-- Witness for the amended C2 on a concrete single-lane road. -/
theorem single_lane_section_witness :
    normalize_lanes ((⟨5, [⟨0, 0, 0⟩, ⟨1, 1, 0⟩], some 1⟩ : Road).lanes.getD 1) = 1 ∧
      (build_lane_section idproj id ⟨5, [⟨0, 0, 0⟩, ⟨1, 1, 0⟩], some 1⟩).left = none :=
  ⟨by decide, (single_lane_section idproj id ⟨5, [⟨0, 0, 0⟩, ⟨1, 1, 0⟩], some 1⟩
    (by decide)).2.2⟩

/-- C8: when the effective lane count `c` is greater than 1, the global
boundaries are the offsets at `(c/2)*lane_width` on each side, the reference
center line is the node sequence unchanged, and (per side) lane `i` (0-based)
has center line offset `i*lane_width + lane_width/2` and border offset
`(i+1)*lane_width`, with right lanes numbered -1, -2, ... (direction
"forward") and left lanes 1, 2, ... (direction "backward"). -/
theorem multi_lane_section (proj : ℚ × ℚ → ℝ × ℝ) (inv : ℝ × ℝ → ℝ × ℝ) (r : Road)
    (h : 1 < normalize_lanes (r.lanes.getD 1)) :
    (build_lane_section proj inv r).left_boundary =
      find_parallel proj inv r.nodes
        ((normalize_lanes (r.lanes.getD 1) : ℝ) / 2 * lane_width) true ∧
      (build_lane_section proj inv r).right_boundary =
        find_parallel proj inv r.nodes
          ((normalize_lanes (r.lanes.getD 1) : ℝ) / 2 * lane_width) false ∧
      (build_lane_section proj inv r).center =
        r.nodes.map (fun n => ((n.lat : ℝ), (n.lng : ℝ))) ∧
      (build_lane_section proj inv r).right =
        (List.range (normalize_lanes (r.lanes.getD 1) / 2).toNat).map (fun i =>
          { id := -((i : Int) + 1), direction := "forward",
            centerLine := find_parallel proj inv r.nodes
              ((i : ℝ) * lane_width + lane_width / 2) false,
            border := find_parallel proj inv r.nodes (((i : ℝ) + 1) * lane_width) false }) ∧
      (build_lane_section proj inv r).left =
        some ((List.range (normalize_lanes (r.lanes.getD 1) / 2).toNat).map (fun i =>
          { id := (i : Int) + 1, direction := "backward",
            centerLine := find_parallel proj inv r.nodes
              ((i : ℝ) * lane_width + lane_width / 2) true,
            border := find_parallel proj inv r.nodes (((i : ℝ) + 1) * lane_width) true })) := by
  have hne : ¬ normalize_lanes (r.lanes.getD 1) = 1 := by omega
  have hceil : ⌈(normalize_lanes (r.lanes.getD 1) : ℝ) / 2⌉
      = normalize_lanes (r.lanes.getD 1) / 2 :=
    ceil_half_even _ (normalize_lanes_even _ h)
  refine ⟨?_, ?_, ?_, ?_, ?_⟩
  · simp only [build_lane_section, if_neg hne]
  · simp only [build_lane_section, if_neg hne]
  · simp only [build_lane_section, if_pos h]
  · simp only [build_lane_section, hceil]
    refine List.map_congr_left fun i hi => ?_
    simp only [build_right_lane, if_neg hne]
  · simp only [build_lane_section, hceil, if_pos h]
    refine congrArg some (List.map_congr_left fun i hi => ?_)
    simp only [build_left_lane]

/-- Witness for C8 on a concrete 2-lane road. -/
theorem multi_lane_section_witness :
    1 < normalize_lanes ((⟨6, [⟨0, 0, 0⟩, ⟨1, 1, 0⟩], some 2⟩ : Road).lanes.getD 1) ∧
      (build_lane_section idproj id ⟨6, [⟨0, 0, 0⟩, ⟨1, 1, 0⟩], some 2⟩).center =
        (⟨6, [⟨0, 0, 0⟩, ⟨1, 1, 0⟩], some 2⟩ : Road).nodes.map
          (fun n => ((n.lat : ℝ), (n.lng : ℝ))) :=
  ⟨by decide, (multi_lane_section idproj id ⟨6, [⟨0, 0, 0⟩, ⟨1, 1, 0⟩], some 2⟩
    (by decide)).2.2.1⟩

/-- C6 counterexample: on the degenerate 2-point polyline whose two points
coincide at (0,0), `find_parallel` does not fail with a `DegenerateGeometry`
error (no such error exists in the code): it returns a 2-point result (the
source points, under the division-by-zero-as-zero convention of the
embedding; the Python code divides by a zero norm there without any check). -/
theorem degenerate_segment_returns_points :
    find_parallel idproj id [⟨0, 0, 0⟩, ⟨1, 0, 0⟩] 3 false = [(0, 0), (0, 0)] := by
  simp only [find_parallel, List.map_cons, List.map_nil, List.length_cons, List.length_nil]
  norm_num
  rw [show List.range 1 = [0] from by decide]
  simp only [List.flatMap_cons, List.flatMap_nil, List.append_nil]
  unfold segment_points
  norm_num [idproj, sub2, norm2_zero_zero]

/-- C6 as amended: `find_parallel` performs no degeneracy check: on a
2-point polyline whose points coincide it returns the (projected and
re-inverted) source point twice, for any projector, instead of failing. -/
theorem degenerate_segment_silent (proj : ℚ × ℚ → ℝ × ℝ) (inv : ℝ × ℝ → ℝ × ℝ)
    (n1 n2 : Node) (w : ℝ) (left : Bool)
    (h : (n1.lat, n1.lng) = ((n2.lat, n2.lng) : ℚ × ℚ)) :
    find_parallel proj inv [n1, n2] w left =
      [inv (proj (n1.lat, n1.lng)), inv (proj (n1.lat, n1.lng))] := by
  simp only [find_parallel, List.map_cons, List.map_nil, List.length_cons, List.length_nil]
  norm_num
  rw [show List.range 1 = [0] from by decide]
  simp only [List.flatMap_cons, List.flatMap_nil, List.append_nil]
  unfold segment_points
  simp only [List.getD_cons_zero, List.getD_cons_succ]
  rw [← h]
  simp [sub2, norm2_zero_zero]

/-- Witness for the amended C6 on a concrete coincident pair. -/
theorem degenerate_segment_silent_witness :
    ((⟨0, 2, 3⟩ : Node).lat, (⟨0, 2, 3⟩ : Node).lng) =
        ((((⟨1, 2, 3⟩ : Node)).lat, ((⟨1, 2, 3⟩ : Node)).lng) : ℚ × ℚ) ∧
      find_parallel idproj id [⟨0, 2, 3⟩, ⟨1, 2, 3⟩] 5 true =
        [id (idproj (2, 3)), id (idproj (2, 3))] :=
  ⟨rfl, degenerate_segment_silent idproj id ⟨0, 2, 3⟩ ⟨1, 2, 3⟩ 5 true rfl⟩
